import Mathlib

/-!
Shallow embedding of the `math_lib` crate's `Mat3`/`Vec2` subsystem
(`src/mat3.rs`, `src/vec2.rs`) and the parts of `Vec3`/`Mat2`/`Mat4` they
consume.  The crate's `vec3.rs`, `mat2.rs` and `mat4.rs` are not among the
sources, so the handful of operations they provide (`Vec3` dot product,
scalar division and `extend`, `Mat2::det`, the `Vec4`/`Mat4` shapes) are
modelled from the specification, each marked `Modelled from the spec:` in
its doc comment.  Everything else is transcribed from the Rust source.

Rust generic trait bounds (`T: Mul + Add + ...`) become Lean typeclass
binders; Rust `panic!` in `Index::index` becomes `Option.none`.
-/

/-- The `Vec2<T>` struct of `vec2.rs`: fields `x`, `y`. -/
structure Vec2 (T : Type) where
  x : T
  y : T
deriving DecidableEq

/-- The free constructor `vec2` of `vec2.rs`. -/
def vec2 {T : Type} (x y : T) : Vec2 T :=
  Vec2.mk x y

/-- The `Vec3<T>` struct (declared in the missing `vec3.rs`; its shape —
fields `x`, `y`, `z` — is fixed by `mat3.rs`, which uses `vec3(a,b,c)` and
`.x/.y/.z` projections, and by the spec data model). -/
structure Vec3 (T : Type) where
  x : T
  y : T
  z : T
deriving DecidableEq

/-- The free constructor `vec3`, as used throughout `mat3.rs`. -/
def vec3 {T : Type} (x y z : T) : Vec3 T :=
  Vec3.mk x y z

/-- Modelled from the spec: `Vec4<T>` (the missing `vec4.rs`); §3 fixes the
field order x, y, z, w. -/
structure Vec4 (T : Type) where
  x : T
  y : T
  z : T
  w : T
deriving DecidableEq

/-- Modelled from the spec: the free constructor `vec4`. -/
def vec4 {T : Type} (x y z w : T) : Vec4 T :=
  Vec4.mk x y z w

/-- Modelled from the spec: `Mat2<T>` (the missing `mat2.rs`); §3: two row
vectors named `x`, `y`. -/
structure Mat2 (T : Type) where
  x : Vec2 T
  y : Vec2 T
deriving DecidableEq

/-- The free constructor `mat2`, as used by `Mat3::cofactor`. -/
def mat2 {T : Type} (x y : Vec2 T) : Mat2 T :=
  Mat2.mk x y

/-- The `Mat3<T>` struct of `mat3.rs`: three row vectors `x`, `y`, `z`. -/
structure Mat3 (T : Type) where
  x : Vec3 T
  y : Vec3 T
  z : Vec3 T
deriving DecidableEq

/-- The free constructor `mat3` of `mat3.rs`. -/
def mat3 {T : Type} (x y z : Vec3 T) : Mat3 T :=
  Mat3.mk x y z

/-- Modelled from the spec: `Mat4<T>` (the missing `mat4.rs`); §3: four row
vectors named `x`, `y`, `z`, `w`. -/
structure Mat4 (T : Type) where
  x : Vec4 T
  y : Vec4 T
  z : Vec4 T
  w : Vec4 T
deriving DecidableEq

/-- Modelled from the spec: the free constructor `mat4`, as called by
`Mat3::extend`. -/
def mat4 {T : Type} (x y z w : Vec4 T) : Mat4 T :=
  Mat4.mk x y z w

/-- The `Trig` capability consumed by the rotation constructors (`cos`,
`sin` methods of the scalar type). -/
class Trig (T : Type) where
  cos : T → T
  sin : T → T

/-- Modelled from the spec: `Mat2::det` (§4.2): `x.x*y.y - x.y*y.x`. -/
def Mat2.det {T : Type} [Mul T] [Sub T] (m : Mat2 T) : T :=
  m.x.x * m.y.y - m.x.y * m.y.x

/-- Modelled from the spec: the `Vec3` dot product (§4.1): sum of
component-wise products, following the `(self*other).sum_elem()` shape of
`vec2.rs` (left-associated sum). -/
def Vec3.dot {T : Type} [Mul T] [Add T] (a b : Vec3 T) : T :=
  a.x * b.x + a.y * b.y + a.z * b.z

/-- Modelled from the spec: `Vec3 / scalar` (§4.1 scalar broadcast `/ T`),
component-wise division by the scalar, as the `Div<T> for Vec2<T>` impl of
`vec2.rs` does for two components. -/
def Vec3.divScalar {T : Type} [Div T] (v : Vec3 T) (s : T) : Vec3 T :=
  vec3 (v.x / s) (v.y / s) (v.z / s)

instance {T : Type} [Div T] : HDiv (Vec3 T) T (Vec3 T) :=
  ⟨Vec3.divScalar⟩

/-- `Vec2::extend` of `vec2.rs`: appends `z`, producing a `Vec3`. -/
def Vec2.extend {T : Type} (v : Vec2 T) (z : T) : Vec3 T :=
  vec3 v.x v.y z

/-- Modelled from the spec: `Vec3::extend` (§4.1: appends one scalar,
producing the next-higher-dimension vector), following the `Vec2::extend`
pattern of `vec2.rs`. -/
def Vec3.extend {T : Type} (v : Vec3 T) (w : T) : Vec4 T :=
  vec4 v.x v.y v.z w

/-- `Mat3::det` of `mat3.rs`: the direct 6-term expansion, transcribed
term for term with the source's association. -/
def Mat3.det {T : Type} [Mul T] [Add T] [Sub T] (m : Mat3 T) : T :=
  m.x.x * m.y.y * m.z.z
    + m.x.y * m.y.z * m.z.x
    + m.x.z * m.y.x * m.z.y
    - m.x.x * m.y.z * m.z.y
    - m.x.y * m.y.x * m.z.z
    - m.x.z * m.y.y * m.z.x

/-- `Mat3::cofactor` of `mat3.rs`: nine signed `Mat2::det` calls on the
2x2 minors, transcribed with the source's signs and minor layouts. -/
def Mat3.cofactor {T : Type} [Mul T] [Add T] [Sub T] [Div T] [Neg T]
    (m : Mat3 T) : Mat3 T :=
  mat3
    (vec3
      (mat2 (vec2 m.y.y m.y.z) (vec2 m.z.y m.z.z)).det
      (-(mat2 (vec2 m.y.x m.y.z) (vec2 m.z.x m.z.z)).det)
      (mat2 (vec2 m.y.x m.y.y) (vec2 m.z.x m.z.y)).det)
    (vec3
      (-(mat2 (vec2 m.x.y m.x.z) (vec2 m.z.y m.z.z)).det)
      (mat2 (vec2 m.x.x m.x.z) (vec2 m.z.x m.z.z)).det
      (-(mat2 (vec2 m.x.x m.x.y) (vec2 m.z.x m.z.y)).det))
    (vec3
      (mat2 (vec2 m.x.y m.x.z) (vec2 m.y.y m.y.z)).det
      (-(mat2 (vec2 m.x.x m.x.z) (vec2 m.y.x m.y.z)).det)
      (mat2 (vec2 m.x.x m.x.y) (vec2 m.y.x m.y.y)).det)

/-- `Mat3::transpose` of `mat3.rs`. -/
def Mat3.transpose {T : Type} (m : Mat3 T) : Mat3 T :=
  mat3
    (vec3 m.x.x m.y.x m.z.x)
    (vec3 m.x.y m.y.y m.z.y)
    (vec3 m.x.z m.y.z m.z.z)

/-- `Mat3::adjoint` of `mat3.rs`: `self.cofactor().transpose()`. -/
def Mat3.adjoint {T : Type} [Mul T] [Add T] [Sub T] [Div T] [Neg T]
    (m : Mat3 T) : Mat3 T :=
  m.cofactor.transpose

/-- `Mat3::inv` of `mat3.rs`: each adjoint row divided by the
determinant. -/
def Mat3.inv {T : Type} [Mul T] [Add T] [Sub T] [Div T] [Neg T]
    (m : Mat3 T) : Mat3 T :=
  mat3 (m.adjoint.x / m.det) (m.adjoint.y / m.det) (m.adjoint.z / m.det)

/-- `Mat3::ident` of `mat3.rs`: ones on the diagonal, zeros elsewhere. -/
def Mat3.ident {T : Type} [Zero T] [One T] : Mat3 T :=
  mat3
    (vec3 1 0 0)
    (vec3 0 1 0)
    (vec3 0 0 1)

/-- `Mat3::apply_to` of `mat3.rs`: row-wise dot against the vector. -/
def Mat3.apply_to {T : Type} [Mul T] [Add T] (m : Mat3 T) (v : Vec3 T) :
    Vec3 T :=
  vec3 (m.x.dot v) (m.y.dot v) (m.z.dot v)

/-- `Mat3::extend` of `mat3.rs`: each row gains the matching component of
`right`; the fourth row is `bottom` extended with `corner`. -/
def Mat3.extend {T : Type} (m : Mat3 T) (right bottom : Vec3 T)
    (corner : T) : Mat4 T :=
  mat4
    (m.x.extend right.x)
    (m.y.extend right.y)
    (m.z.extend right.z)
    (bottom.extend corner)

/-- `Mat3::rotate_x` of `mat3.rs`. -/
def Mat3.rotate_x {T : Type} [Trig T] [Neg T] [Zero T] [One T]
    (angle : T) : Mat3 T :=
  mat3
    (vec3 1 0 0)
    (vec3 0 (Trig.cos angle) (-(Trig.sin angle)))
    (vec3 0 (Trig.sin angle) (Trig.cos angle))

/-- The `Mul<Mat3<T>> for Mat3<T>` impl of `mat3.rs`: transpose the right
factor, then fill each entry with a row-row dot product. -/
def Mat3.mul {T : Type} [Mul T] [Add T] (a b : Mat3 T) : Mat3 T :=
  let t := b.transpose
  mat3
    (vec3 (a.x.dot t.x) (a.x.dot t.y) (a.x.dot t.z))
    (vec3 (a.y.dot t.x) (a.y.dot t.y) (a.y.dot t.z))
    (vec3 (a.z.dot t.x) (a.z.dot t.y) (a.z.dot t.z))

instance {T : Type} [Mul T] [Add T] : Mul (Mat3 T) :=
  ⟨Mat3.mul⟩

/-- The `Default for Mat3<T>` impl of `mat3.rs`: the identity matrix. -/
def Mat3.default {T : Type} [Zero T] [One T] : Mat3 T :=
  Mat3.ident

/-- The `Default for Vec2<T>` impl of `vec2.rs`: the scalar default in
each component. -/
def Vec2.default {T : Type} [Inhabited T] : Vec2 T :=
  vec2 Inhabited.default Inhabited.default

/-- `Vec2::max` of `vec2.rs`, with its exact comparisons. -/
def Vec2.max {T : Type} [LinearOrder T] (v o : Vec2 T) : Vec2 T :=
  vec2
    (if v.x < o.x then o.x else v.x)
    (if v.y < o.y then o.y else v.y)

/-- `Vec2::min` of `vec2.rs`, with its exact comparisons. -/
def Vec2.min {T : Type} [LinearOrder T] (v o : Vec2 T) : Vec2 T :=
  vec2
    (if v.x > o.x then o.x else v.x)
    (if v.y > o.y then o.y else v.y)

/-- `Vec2::elem_max` of `vec2.rs`: `self.max(vec2(m,m))`. -/
def Vec2.elem_max {T : Type} [LinearOrder T] (v : Vec2 T) (m : T) :
    Vec2 T :=
  v.max (vec2 m m)

/-- `Vec2::elem_min` of `vec2.rs`: `self.min(vec2(m,m,))` — the source's
trailing comma inside `vec2(m,m,)` is ordinary Rust tuple-call syntax and
passes exactly the two scalars. -/
def Vec2.elem_min {T : Type} [LinearOrder T] (v : Vec2 T) (m : T) :
    Vec2 T :=
  v.min (vec2 m m)

/-- The `Index<usize> for Vec2<T>` impl of `vec2.rs`: `0 => x`, `1 => y`,
any other index panics.  The panic is embedded as `none`; a `some` result
is a normal return. -/
def Vec2.index {T : Type} (v : Vec2 T) (i : Nat) : Option T :=
  match i with
  | 0 => some v.x
  | 1 => some v.y
  | _ => none

/-- Modelled from the spec: the top-left 3x3 block of a `Mat4`, the
projection the spec's `extend` round-trip property (§8) compares against
the source matrix. -/
def Mat4.truncate3 {T : Type} (m : Mat4 T) : Mat3 T :=
  mat3
    (vec3 m.x.x m.x.y m.x.z)
    (vec3 m.y.x m.y.y m.y.z)
    (vec3 m.z.x m.z.y m.z.z)

/-- A trigonometry instance for the exact scalar ℚ used by concrete
witnesses; it satisfies `cos 0 = 1` and `sin 0 = 0`. -/
instance : Trig ℚ :=
  ⟨fun _ => 1, fun _ => 0⟩

/-- C2: `Mat3::det` equals exactly the 6-term expansion
`x.x*y.y*z.z + x.y*y.z*z.x + x.z*y.x*z.y - x.x*y.z*z.y - x.y*y.x*z.z -
x.z*y.y*z.x`, term for term in that association. -/
theorem Mat3.det_six_term {T : Type} [Mul T] [Add T] [Sub T] (m : Mat3 T) :
    m.det = m.x.x * m.y.y * m.z.z
      + m.x.y * m.y.z * m.z.x
      + m.x.z * m.y.x * m.z.y
      - m.x.x * m.y.z * m.z.y
      - m.x.y * m.y.x * m.z.z
      - m.x.z * m.y.y * m.z.x :=
  rfl

/-- C3: every entry of `Mat3::cofactor` is plus or minus the 2x2
determinant `a*d - b*c` of the minor obtained by deleting that entry's row
and column, signs in the checkerboard pattern `+,-,+ / -,+,- / +,-,+`,
and `Mat3::adjoint` is the transposed cofactor matrix. -/
theorem Mat3.cofactor_signed_minors {T : Type} [Field T] (m : Mat3 T) :
    m.cofactor = mat3
      (vec3 (m.y.y * m.z.z - m.y.z * m.z.y)
        (-(m.y.x * m.z.z - m.y.z * m.z.x))
        (m.y.x * m.z.y - m.y.y * m.z.x))
      (vec3 (-(m.x.y * m.z.z - m.x.z * m.z.y))
        (m.x.x * m.z.z - m.x.z * m.z.x)
        (-(m.x.x * m.z.y - m.x.y * m.z.x)))
      (vec3 (m.x.y * m.y.z - m.x.z * m.y.y)
        (-(m.x.x * m.y.z - m.x.z * m.y.x))
        (m.x.x * m.y.y - m.x.y * m.y.x))
    ∧ m.adjoint = m.cofactor.transpose :=
  ⟨rfl, rfl⟩

/-- C4: `A * B` transposes `B` and fills entry `(i,j)` with the dot of
`A`'s row `i` and transposed-`B`'s row `j`; each entry therefore equals the
standard sum over `k` of `A[i][k] * B[k][j]`. -/
theorem Mat3.mul_transpose_dot {T : Type} [CommRing T] (a b : Mat3 T) :
    a * b = mat3
      (vec3 (a.x.dot b.transpose.x) (a.x.dot b.transpose.y)
        (a.x.dot b.transpose.z))
      (vec3 (a.y.dot b.transpose.x) (a.y.dot b.transpose.y)
        (a.y.dot b.transpose.z))
      (vec3 (a.z.dot b.transpose.x) (a.z.dot b.transpose.y)
        (a.z.dot b.transpose.z))
    ∧ (a * b).x.x = a.x.x * b.x.x + a.x.y * b.y.x + a.x.z * b.z.x
    ∧ (a * b).x.y = a.x.x * b.x.y + a.x.y * b.y.y + a.x.z * b.z.y
    ∧ (a * b).x.z = a.x.x * b.x.z + a.x.y * b.y.z + a.x.z * b.z.z
    ∧ (a * b).y.x = a.y.x * b.x.x + a.y.y * b.y.x + a.y.z * b.z.x
    ∧ (a * b).y.y = a.y.x * b.x.y + a.y.y * b.y.y + a.y.z * b.z.y
    ∧ (a * b).y.z = a.y.x * b.x.z + a.y.y * b.y.z + a.y.z * b.z.z
    ∧ (a * b).z.x = a.z.x * b.x.x + a.z.y * b.y.x + a.z.z * b.z.x
    ∧ (a * b).z.y = a.z.x * b.x.y + a.z.y * b.y.y + a.z.z * b.z.y
    ∧ (a * b).z.z = a.z.x * b.x.z + a.z.y * b.y.z + a.z.z * b.z.z :=
  ⟨rfl, rfl, rfl, rfl, rfl, rfl, rfl, rfl, rfl, rfl⟩

/-- C5: the top-left 3x3 block of `M.extend(right, bottom, corner)` is `M`;
rows 0..2 gain `right`'s matching component as 4th entry; the 4th row is
`bottom` with `corner` appended. -/
theorem Mat3.extend_blocks {T : Type} (m : Mat3 T) (right bottom : Vec3 T)
    (corner : T) :
    (m.extend right bottom corner).truncate3 = m
    ∧ (m.extend right bottom corner).x.w = right.x
    ∧ (m.extend right bottom corner).y.w = right.y
    ∧ (m.extend right bottom corner).z.w = right.z
    ∧ (m.extend right bottom corner).w
        = vec4 bottom.x bottom.y bottom.z corner :=
  ⟨rfl, rfl, rfl, rfl, rfl⟩

/-- C7: transposing a `Mat3` twice gives back the original matrix. -/
theorem Mat3.transpose_transpose {T : Type} (m : Mat3 T) :
    m.transpose.transpose = m :=
  rfl

/-- C6: when the scalar's trigonometry satisfies `cos 0 = 1` and
`sin 0 = 0` (and `-0 = 0`), `Mat3::rotate_x(0)` is the identity matrix. -/
theorem Mat3.rotate_x_zero {T : Type} [Trig T] [Neg T] [Zero T] [One T]
    (hcos : Trig.cos (0 : T) = 1) (hsin : Trig.sin (0 : T) = 0)
    (hneg : -(0 : T) = 0) :
    Mat3.rotate_x (0 : T) = Mat3.ident := by
  simp only [Mat3.rotate_x, Mat3.ident, hcos, hsin, hneg]

/-- Witness for C6 at the exact scalar ℚ. -/
theorem Mat3.rotate_x_zero_witness :
    Trig.cos (0 : ℚ) = 1 ∧ Trig.sin (0 : ℚ) = 0 ∧ -(0 : ℚ) = 0
    ∧ Mat3.rotate_x (0 : ℚ) = Mat3.ident :=
  ⟨rfl, rfl, neg_zero, Mat3.rotate_x_zero rfl rfl neg_zero⟩

/-- C8: `Vec2` indexed access returns `x` at 0 and `y` at 1, and panics
(embedded here as `none`, never a `some` sentinel) at every index ≥ 2. -/
theorem Vec2.index_spec {T : Type} (v : Vec2 T) (i : Nat) (h : 2 ≤ i) :
    v.index 0 = some v.x ∧ v.index 1 = some v.y ∧ v.index i = none := by
  refine ⟨rfl, rfl, ?_⟩
  match i, h with
  | n + 2, _ => rfl

/-- Witness for C8 at a concrete vector and the out-of-range index 5. -/
theorem Vec2.index_spec_witness :
    (2 : Nat) ≤ 5
    ∧ ((vec2 (3 : ℚ) 7).index 0 = some 3
      ∧ (vec2 (3 : ℚ) 7).index 1 = some 7
      ∧ (vec2 (3 : ℚ) 7).index 5 = none) :=
  ⟨by decide, Vec2.index_spec (vec2 3 7) 5 (by decide)⟩

/-- C9: `Vec2::elem_min` broadcasts the scalar to both components — it is
`min` against `vec2(m, m)` and each output component is the minimum of the
matching component and the scalar; symmetrically for `elem_max`. -/
theorem Vec2.elem_min_broadcast {T : Type} [LinearOrder T] (v : Vec2 T)
    (m : T) :
    v.elem_min m = v.min (vec2 m m)
    ∧ (v.elem_min m).x = Min.min v.x m
    ∧ (v.elem_min m).y = Min.min v.y m
    ∧ v.elem_max m = v.max (vec2 m m)
    ∧ (v.elem_max m).x = Max.max v.x m
    ∧ (v.elem_max m).y = Max.max v.y m := by
  refine ⟨rfl, ?_, ?_, rfl, ?_, ?_⟩ <;>
    simp only [Vec2.elem_min, Vec2.elem_max, Vec2.min, Vec2.max, vec2] <;>
    split_ifs with h
  · exact (min_eq_right h.le).symm
  · exact (min_eq_left (not_lt.mp h)).symm
  · exact (min_eq_right h.le).symm
  · exact (min_eq_left (not_lt.mp h)).symm
  · exact (max_eq_right h.le).symm
  · exact (max_eq_left (not_lt.mp h)).symm
  · exact (max_eq_right h.le).symm
  · exact (max_eq_left (not_lt.mp h)).symm

/-- C10: the default `Mat3` is the identity matrix (not the zero matrix),
the default `Vec2` is the component-wise scalar default, and the default
`Mat3` applied to any vector returns it unchanged. -/
theorem Mat3.default_ident_applies_id {T : Type} [CommRing T]
    [Inhabited T] (v : Vec3 T) :
    (Mat3.default : Mat3 T) = Mat3.ident
    ∧ (Vec2.default : Vec2 T) = vec2 Inhabited.default Inhabited.default
    ∧ (Mat3.default : Mat3 T).apply_to v = v := by
  refine ⟨rfl, rfl, ?_⟩
  simp [Mat3.default, Mat3.ident, Mat3.apply_to, Vec3.dot, mat3, vec3]

/-- The matrix `*` is definitionally `Mat3.mul` (helper). -/
theorem Mat3.mul_def {T : Type} [Mul T] [Add T] (a b : Mat3 T) :
    a * b = Mat3.mul a b :=
  rfl

/-- Vector-by-scalar `/` is definitionally `Vec3.divScalar` (helper). -/
theorem Vec3.div_scalar_def {T : Type} [Div T] (v : Vec3 T) (s : T) :
    v / s = Vec3.divScalar v s :=
  rfl

set_option maxHeartbeats 1000000 in
/-- C1: over a field, for every `Mat3` with nonzero determinant,
`M.inv() * M` is the identity matrix, where `inv` divides each adjoint row
by the determinant and `*` is the transpose-then-row-dot product. -/
theorem Mat3.inv_mul_self {T : Type} [Field T] (m : Mat3 T)
    (h : m.det ≠ 0) :
    m.inv * m = Mat3.ident := by
  obtain ⟨⟨a, b, c⟩, ⟨d, e, f⟩, ⟨g, p, q⟩⟩ := m
  simp only [Mat3.det, mat3, vec3] at h
  simp only [Mat3.mul_def, Mat3.mul, Mat3.inv, Mat3.adjoint,
    Mat3.cofactor, Mat3.transpose, Mat2.det, Mat3.det, Mat3.ident,
    Vec3.div_scalar_def, Vec3.divScalar, Vec3.dot, mat3, vec3, mat2, vec2,
    Mat3.mk.injEq, Vec3.mk.injEq]
  refine ⟨⟨?_, ?_, ?_⟩, ⟨?_, ?_, ?_⟩, ⟨?_, ?_, ?_⟩⟩ <;>
    field_simp <;> ring

/-- Witness for C1 at a concrete rational matrix whose determinant is 1. -/
theorem Mat3.inv_mul_self_witness :
    (mat3 (vec3 (1 : ℚ) 2 3) (vec3 0 1 4) (vec3 5 6 0)).det ≠ 0
    ∧ (mat3 (vec3 (1 : ℚ) 2 3) (vec3 0 1 4) (vec3 5 6 0)).inv
        * mat3 (vec3 (1 : ℚ) 2 3) (vec3 0 1 4) (vec3 5 6 0)
      = Mat3.ident :=
  ⟨by norm_num [Mat3.det, mat3, vec3],
    Mat3.inv_mul_self _ (by norm_num [Mat3.det, mat3, vec3])⟩
